import Mathlib

/-!
Verification of `network_scanner.py` (a ping-based local network scanner)
against its natural-language specification.

The development shallowly embeds the program:
* IPv4 addresses are natural numbers below 2^32.
* `ip_network(cidr, strict=False)` normalization and `net.hosts()` address
  enumeration (the `ipaddress` standard-library behaviour the program relies
  on) become pure functions on `(base, prefix)` pairs.
* `ping_host` becomes a function of the probe primitive's outcome.
* `scan_network`'s result collection becomes a pure function of the
  completion order of the submitted futures.
* The thread-pool executor with its bounded worker count, the signal flag
  and the collection loop become an explicit labelled transition system.
* `save_results_securely` and `main` become pure functions of their inputs
  and of the outcomes of the external effects they perform.
-/

/-- Number of addresses in an IPv4 block with the given prefix length:
`2^(32 - prefix)`. -/
def blockSize (p : Nat) : Nat := 2 ^ (32 - p)

/-- Dotted-quad to numeric address, e.g. `ipToNat 192 168 1 0`. -/
def ipToNat (a b c d : Nat) : Nat := ((a * 256 + b) * 256 + c) * 256 + d

/-- `ipaddress.ip_network(text, strict=False)` clears the host bits of the
given address, yielding the base address of the containing network
(lines 69-72 of `network_scanner.py` call it exactly this way). -/
def normalizeBase (addr p : Nat) : Nat := addr - addr % blockSize p

/-- `net.hosts()` for an IPv4 network with base address `base` and prefix
length `p`, as consumed on line 77 of `network_scanner.py`.  The usable
hosts are all addresses of the block except the network address and the
broadcast address; for prefix 31 both addresses are yielded and for
prefix 32 the single address is yielded (documented `ipaddress` library
behaviour).  Addresses come out in ascending order. -/
def hostsList (base p : Nat) : List Nat :=
  if 31 ≤ p then (List.range (blockSize p)).map (fun i => base + i)
  else (List.range (blockSize p - 2)).map (fun i => base + 1 + i)

theorem hostsList_nodup (base p : Nat) : (hostsList base p).Nodup := by
  unfold hostsList
  split <;>
    exact (List.nodup_range _).map (fun i j h => by omega)

/-- C3: for every prefix length at most 30, host enumeration yields exactly
`2^(32-prefix) - 2` addresses, in strictly ascending order, and neither the
network address `base` nor the broadcast address `base + 2^(32-prefix) - 1`
is among them. -/
theorem hosts_enumeration_spec (base p : Nat) (hp : p ≤ 30) :
    (hostsList base p).length = 2 ^ (32 - p) - 2 ∧
    (hostsList base p).Pairwise (· < ·) ∧
    base ∉ hostsList base p ∧
    base + (2 ^ (32 - p) - 1) ∉ hostsList base p := by
  have hblock : 4 ≤ blockSize p := by
    have h2 : 2 ≤ 32 - p := by omega
    calc 4 = 2 ^ 2 := by norm_num
    _ ≤ 2 ^ (32 - p) := Nat.pow_le_pow_right (by norm_num) h2
  have hif : ¬ 31 ≤ p := by omega
  unfold hostsList
  rw [if_neg hif]
  refine ⟨by simp [blockSize], ?_, ?_, ?_⟩
  · exact (List.pairwise_lt_range _).map _ (fun i j h => by omega)
  · intro hmem
    obtain ⟨i, _, hi⟩ := List.mem_map.mp hmem
    omega
  · intro hmem
    obtain ⟨i, hir, hi⟩ := List.mem_map.mp hmem
    have := List.mem_range.mp hir
    unfold blockSize at *
    omega

/-- Witness for `hosts_enumeration_spec` at `base = 0`, `p = 30`. -/
theorem hosts_enumeration_spec_witness :
    (30 ≤ 30) ∧
    ((hostsList 0 30).length = 2 ^ (32 - 30) - 2 ∧
     (hostsList 0 30).Pairwise (· < ·) ∧
     0 ∉ hostsList 0 30 ∧
     0 + (2 ^ (32 - 30) - 1) ∉ hostsList 0 30) :=
  ⟨by decide, hosts_enumeration_spec 0 30 (by decide)⟩

/-- C9: degenerate prefixes are never empty — a /31 block yields its two
addresses and a /32 block its single address — and CIDR text with host bits
set is normalized to the containing network: `192.168.1.5/24` becomes base
`192.168.1.0`. -/
theorem degenerate_and_normalization :
    (∀ base : Nat, hostsList base 31 = [base, base + 1]) ∧
    (∀ base : Nat, hostsList base 32 = [base]) ∧
    normalizeBase (ipToNat 192 168 1 5) 24 = ipToNat 192 168 1 0 := by
  refine ⟨?_, ?_, by decide⟩
  · intro base
    simp [hostsList, blockSize, List.range_succ]
  · intro base
    show List.map (fun i => base + i) (List.range 1) = [base]
    rfl

/-- Outcome of one invocation of the probe primitive inside `ping_host`:
the subprocess returned an exit code, the subprocess timed out
(`subprocess.TimeoutExpired`), or some other exception was raised. -/
inductive PingOutcome where
  | completed (returncode : Int)
  | timedOut
  | raised
deriving DecidableEq

/-- `ping_host` (lines 53-64 of `network_scanner.py`): returns
`returncode == 0` when the subprocess completes, and `False` on
`TimeoutExpired` or any other exception — it never propagates a failure. -/
def ping_host : PingOutcome → Bool
  | .completed rc => rc == 0
  | .timedOut => false
  | .raised => false

/-- What `future.result()` delivers for one submitted probe inside the
collection loop of `scan_network`: either the probe's boolean, or it
re-raises an exception from the task. -/
inductive ProbeResult where
  | ok (reachable : Bool)
  | exn
deriving DecidableEq

/-- The result-collection loop of `scan_network` (lines 78-89), as a pure
function of the sequence of `(ip, future.result())` pairs in completion
order, with cancellation never requested: an `ip` is appended to `active`
exactly when its result is `True`; a `False` result contributes nothing
and an exception from `future.result()` is caught and skipped. -/
def collectResults : List (Nat × ProbeResult) → List Nat
  | [] => []
  | (ip, .ok true) :: rest => ip :: collectResults rest
  | (_, .ok false) :: rest => collectResults rest
  | (_, .exn) :: rest => collectResults rest

/-- `scan_network`'s returned `active` list, as a function of the order in
which the submitted futures complete (`completionOrder`, a permutation of
the enumerated hosts) and of the deterministic behaviour `probe` of each
probe task. -/
def scan_results (completionOrder : List Nat) (probe : Nat → ProbeResult) : List Nat :=
  collectResults (completionOrder.map (fun ip => (ip, probe ip)))

/-- Helper: whether a probe result counts as reachable in the loop. -/
def reachableResult : ProbeResult → Bool
  | .ok true => true
  | .ok false => false
  | .exn => false

theorem collectResults_map (probe : Nat → ProbeResult) (l : List Nat) :
    collectResults (l.map (fun ip => (ip, probe ip))) =
      l.filter (fun ip => reachableResult (probe ip)) := by
  induction l with
  | nil => rfl
  | cons ip rest ih =>
    simp only [List.map_cons]
    rcases hpr : probe ip with b | _
    · cases b <;> simp [collectResults, List.filter_cons, reachableResult, hpr, ih]
    · simp [collectResults, List.filter_cons, reachableResult, hpr, ih]

theorem scan_results_filter (π : List Nat) (probe : Nat → ProbeResult) :
    scan_results π probe = π.filter (fun ip => reachableResult (probe ip)) :=
  collectResults_map probe π

/-- C4: failures of an individual reachability check are absorbed:
`ping_host` returns `false` on timeout and on any exception from the probe
primitive rather than raising, and the scan surfaces only addresses whose
probe actually returned `True` — an address whose probe failed or raised
never appears, and no probe failure escapes the collection loop. -/
theorem probe_failure_absorbed :
    ping_host .timedOut = false ∧
    ping_host .raised = false ∧
    ∀ (l : List (Nat × ProbeResult)) (ip : Nat),
      ip ∈ collectResults l → (ip, ProbeResult.ok true) ∈ l := by
  refine ⟨rfl, rfl, ?_⟩
  intro l
  induction l with
  | nil => intro ip h; cases h
  | cons e rest ih =>
    intro ip h
    obtain ⟨a, r⟩ := e
    rcases hr : r with b | _
    · cases b
      · subst hr
        simp only [collectResults] at h
        exact List.mem_cons_of_mem _ (ih ip h)
      · subst hr
        simp only [collectResults] at h
        rcases List.mem_cons.mp h with h | h
        · subst h; exact List.mem_cons_self _ _
        · exact List.mem_cons_of_mem _ (ih ip h)
    · subst hr
      simp only [collectResults] at h
      exact List.mem_cons_of_mem _ (ih ip h)

/-- Witness for `probe_failure_absorbed` on the concrete completion list
`[(7, ok true), (8, exn)]` and the member `7` of its collection. -/
theorem probe_failure_absorbed_witness :
    7 ∈ collectResults [(7, ProbeResult.ok true), (8, ProbeResult.exn)] ∧
    (7, ProbeResult.ok true) ∈ [(7, ProbeResult.ok true), (8, ProbeResult.exn)] :=
  ⟨by decide,
   probe_failure_absorbed.2.2 [(7, ProbeResult.ok true), (8, ProbeResult.exn)] 7 (by decide)⟩

/-- C5: with a fixed deterministic probe stub and cancellation never
requested, two runs of the scan over the same enumerated addresses yield
the same reachable addresses as a set (indeed as a multiset), whatever
completion orders the two runs' futures happen to have. -/
theorem scan_idempotent_membership
    (hostsL π1 π2 : List Nat) (probe : Nat → ProbeResult)
    (h1 : π1.Perm hostsL) (h2 : π2.Perm hostsL) :
    (scan_results π1 probe).Perm (scan_results π2 probe) ∧
    (scan_results π1 probe).toFinset = (scan_results π2 probe).toFinset := by
  have hperm : π1.Perm π2 := h1.trans h2.symm
  have hres : (scan_results π1 probe).Perm (scan_results π2 probe) := by
    rw [scan_results_filter, scan_results_filter]
    exact hperm.filter _
  refine ⟨hres, Finset.ext fun a => ?_⟩
  simp only [List.mem_toFinset]
  exact hres.mem_iff

/-- Witness for `scan_idempotent_membership`: hosts `[1, 2]`, completion
orders `[1, 2]` and `[2, 1]`, probe reachable only at `1`. -/
theorem scan_idempotent_membership_witness :
    ([1, 2] : List Nat).Perm [1, 2] ∧ ([2, 1] : List Nat).Perm [1, 2] ∧
    ((scan_results [1, 2] (fun ip => ProbeResult.ok (ip == 1))).Perm
       (scan_results [2, 1] (fun ip => ProbeResult.ok (ip == 1))) ∧
     (scan_results [1, 2] (fun ip => ProbeResult.ok (ip == 1))).toFinset =
       (scan_results [2, 1] (fun ip => ProbeResult.ok (ip == 1))).toFinset) :=
  ⟨by decide, by decide,
   scan_idempotent_membership [1, 2] [1, 2] [2, 1] _ (by decide) (by decide)⟩

/-- C10: whatever the completion order of the futures and whatever each
probe returns, the `active` list returned by `scan_network` has no
duplicate addresses and contains only enumerated host addresses of the
scanned network. -/
theorem scan_results_nodup_and_subset
    (base p : Nat) (π : List Nat) (probe : Nat → ProbeResult)
    (h : π.Perm (hostsList base p)) :
    (scan_results π probe).Nodup ∧
    ∀ a ∈ scan_results π probe, a ∈ hostsList base p := by
  have hπ : π.Nodup := h.symm.nodup (hostsList_nodup base p)
  rw [scan_results_filter]
  refine ⟨hπ.filter _, fun a ha => ?_⟩
  exact h.mem_iff.mp (List.mem_of_mem_filter ha)

/-- Witness for `scan_results_nodup_and_subset`: network `0/30` (hosts
`[1, 2]`), completion order `[2, 1]`, every probe reachable. -/
theorem scan_results_nodup_and_subset_witness :
    ([2, 1] : List Nat).Perm (hostsList 0 30) ∧
    ((scan_results [2, 1] (fun _ => ProbeResult.ok true)).Nodup ∧
     ∀ a ∈ scan_results [2, 1] (fun _ => ProbeResult.ok true), a ∈ hostsList 0 30) :=
  ⟨by decide,
   scan_results_nodup_and_subset 0 30 [2, 1] _ (by decide)⟩

/-- State of one execution of `scan_network`'s thread pool and collection
loop: `queued` are submitted futures not yet picked up by a worker thread,
`running` are probes currently executing in worker threads, `pending` are
completed futures not yet consumed by the `as_completed` loop, `active` is
the collected reachable list, `shutdown_requested` mirrors the global flag
set by `handle_signal`, and `loopDone` records that the collection loop has
exited (in particular via `break`). -/
structure ScanState where
  queued : List Nat
  running : List Nat
  pending : List (Nat × Bool)
  active : List Nat
  shutdown_requested : Bool
  loopDone : Bool
deriving DecidableEq

/-- Initial state of a run of `scan_network` over `addrs`: line 77 submits
one future per enumerated address upfront, so all addresses start queued,
regardless of the flag. -/
def initState (addrs : List Nat) : ScanState :=
  ⟨addrs, [], [], [], false, false⟩

/-- One step of the system over a pool of `w` worker threads.
* `signal`: the interrupt handler sets the global flag (any time).
* `start`: an idle worker thread (fewer than `w` probes running) picks up
  the next queued future and invokes the probe.  Worker threads never
  consult `shutdown_requested`, faithful to `ThreadPoolExecutor`, whose
  queued futures are not cancelled by the `with`-block's shutdown.
* `finish`: a running probe resolves with outcome `b`.
* `collectBreak`: `as_completed` yields a completed future while the flag
  is set; line 79-80 breaks out of the loop without consuming it.
* `collect`: with the flag clear, the loop consumes a completed future,
  appending its address to `active` exactly when the result is true. -/
inductive Step (w : Nat) : ScanState → ScanState → Prop
  | signal (s : ScanState) :
      Step w s { s with shutdown_requested := true }
  | start (s : ScanState) (a : Nat) (rest : List Nat)
      (hq : s.queued = a :: rest) (hw : s.running.length < w) :
      Step w s { s with queued := rest, running := s.running ++ [a] }
  | finish (s : ScanState) (a : Nat) (b : Bool) (hmem : a ∈ s.running) :
      Step w s { s with running := s.running.erase a,
                        pending := s.pending ++ [(a, b)] }
  | collectBreak (s : ScanState) (e : Nat × Bool) (rest : List (Nat × Bool))
      (hl : s.loopDone = false) (hc : s.shutdown_requested = true)
      (hp : s.pending = e :: rest) :
      Step w s { s with loopDone := true }
  | collect (s : ScanState) (a : Nat) (b : Bool) (rest : List (Nat × Bool))
      (hl : s.loopDone = false) (hc : s.shutdown_requested = false)
      (hp : s.pending = (a, b) :: rest) :
      Step w s { s with pending := rest,
                        active := if b then s.active ++ [a] else s.active }

/-- Reachability from an initial state by zero or more steps. -/
inductive Reach (w : Nat) (s0 : ScanState) : ScanState → Prop
  | refl : Reach w s0 s0
  | tail {s t : ScanState} : Reach w s0 s → Step w s t → Reach w s0 t

/-- C1: for every concurrency limit `w` in `[1, 200]` and every address
sequence, at most `w` probes are in flight at any instant of the scan —
every reachable state of the executor has at most `w` running probes. -/
theorem scan_concurrency_bound (w : Nat) (addrs : List Nat) (s : ScanState)
    (h1 : 1 ≤ w) (h2 : w ≤ 200) (hr : Reach w (initState addrs) s) :
    s.running.length ≤ w := by
  induction hr with
  | refl => simp [initState]
  | tail hr hst ih =>
    cases hst with
    | signal => exact ih
    | start a rest hq hw =>
      simp only [List.length_append, List.length_cons, List.length_nil]
      omega
    | finish a b hmem =>
      have := List.length_erase_of_mem hmem
      simp only [this]
      omega
    | collectBreak e rest hl hc hp => exact ih
    | collect a b rest hl hc hp => exact ih

/-- Witness for `scan_concurrency_bound`: limit 1, one address, at the
state reached after the worker picks up the single queued probe. -/
theorem scan_concurrency_bound_witness :
    1 ≤ 1 ∧ 1 ≤ 200 ∧
    (⟨[], [5], [], [], false, false⟩ : ScanState).running.length ≤ 1 :=
  ⟨by decide, by decide,
   scan_concurrency_bound 1 [5] ⟨[], [5], [], [], false, false⟩ (by decide) (by decide)
     (Reach.tail Reach.refl (Step.start _ 5 [] rfl (by decide)))⟩

/-- C2 fails on the code: all futures are submitted upfront and worker
threads never consult the flag, so after cancellation with no probe in
flight the pool still starts a queued probe.  Concretely, with limit 1 and
addresses `[10, 11]`, the state with the flag set and nothing running is
reachable, and from it the pool dispatches probe `10`. -/
theorem cancellation_dispatch_counterexample :
    Reach 1 (initState [10, 11]) ⟨[10, 11], [], [], [], true, false⟩ ∧
    (⟨[10, 11], [], [], [], true, false⟩ : ScanState).shutdown_requested = true ∧
    (⟨[10, 11], [], [], [], true, false⟩ : ScanState).running = [] ∧
    Step 1 ⟨[10, 11], [], [], [], true, false⟩ ⟨[11], [10], [], [], true, false⟩ ∧
    (⟨[11], [10], [], [], true, false⟩ : ScanState).running = [10] :=
  ⟨Reach.tail Reach.refl (Step.signal _), rfl, rfl,
   Step.start _ 10 [11] rfl (by decide), rfl⟩

/-- C2 amended: once the cancellation flag is set, the collected result
list is frozen (the coordinator returns the partial result collected so
far) and the flag stays set; and no in-flight probe is ever forcibly
aborted — a running probe only leaves the running set by finishing with a
result.  However, probes still queued at cancellation time are still
dispatched, since every future was submitted upfront. -/
theorem cancellation_freezes_results_no_abort (w : Nat) (s t : ScanState) (a : Nat)
    (hst : Step w s t) :
    (s.shutdown_requested = true → t.active = s.active ∧ t.shutdown_requested = true) ∧
    (a ∈ s.running → a ∈ t.running ∨ ∃ b, (a, b) ∈ t.pending) := by
  cases hst with
  | signal => exact ⟨fun _ => ⟨rfl, rfl⟩, fun h => Or.inl h⟩
  | start a0 rest hq hw =>
    exact ⟨fun h => ⟨rfl, h⟩, fun h => Or.inl (List.mem_append_left _ h)⟩
  | finish a0 b hmem =>
    refine ⟨fun h => ⟨rfl, h⟩, fun h => ?_⟩
    by_cases hab : a = a0
    · subst hab
      exact Or.inr ⟨b, List.mem_append_right _ (List.mem_singleton.mpr rfl)⟩
    · exact Or.inl ((List.mem_erase_of_ne hab).mpr h)
  | collectBreak e rest hl hc hp =>
    exact ⟨fun h => ⟨rfl, h⟩, fun h => Or.inl h⟩
  | collect a0 b rest hl hc hp =>
    refine ⟨fun h => ?_, fun h => Or.inl h⟩
    rw [hc] at h
    cases h

/-- Witness for `cancellation_freezes_results_no_abort`: the finish step of
probe 5 under a set flag. -/
theorem cancellation_freezes_results_no_abort_witness :
    ((⟨[], [5], [], [], true, false⟩ : ScanState).shutdown_requested = true →
      (⟨[], [], [(5, true)], [], true, false⟩ : ScanState).active =
        (⟨[], [5], [], [], true, false⟩ : ScanState).active ∧
      (⟨[], [], [(5, true)], [], true, false⟩ : ScanState).shutdown_requested = true) ∧
    (5 ∈ (⟨[], [5], [], [], true, false⟩ : ScanState).running →
      5 ∈ (⟨[], [], [(5, true)], [], true, false⟩ : ScanState).running ∨
      ∃ b, (5, b) ∈ (⟨[], [], [(5, true)], [], true, false⟩ : ScanState).pending) :=
  cancellation_freezes_results_no_abort 1 _ _ 5 (Step.finish _ 5 true (by decide))

/-- `SAVE_FILE_MODE` (line 24): owner read/write only. -/
def SAVE_FILE_MODE : Nat := 0o600

/-- Default save filename (lines 94-97): a timestamp-derived name in the
system temporary directory. -/
def default_filename (tmpDir ts : String) : String :=
  tmpDir ++ "/scan_" ++ ts ++ ".txt"

/-- Filename selection of `save_results_securely`: the caller's filename if
supplied, otherwise the timestamp-derived default. -/
def save_filename (filename : Option String) (tmpDir ts : String) : String :=
  match filename with
  | none => default_filename tmpDir ts
  | some f => f

/-- Python's `"\n".join(hosts)` as used on line 106. -/
def joinNewline : List String → String
  | [] => ""
  | [h] => h
  | h :: rest => h ++ "\n" ++ joinNewline rest

/-- The bytes written by `save_results_securely` (lines 104-106): a header
line, a UTC timestamp line, then the hosts joined by newlines with one
trailing newline exactly when the host list is nonempty. -/
def save_content (hosts : List String) (iso : String) : String :=
  "Scan results - host discovery\n" ++
  ("Timestamp (UTC): " ++ iso ++ "Z\n") ++
  (joinNewline hosts ++ (if hosts.isEmpty then "" else "\n"))

theorem joinNewline_lines (hosts : List String) :
    joinNewline hosts ++ (if hosts.isEmpty then "" else "\n") =
      (hosts.map (fun h => h ++ "\n")).foldr (· ++ ·) "" := by
  induction hosts with
  | nil => simp [joinNewline]
  | cons h rest ih =>
    cases rest with
    | nil => simp [joinNewline]
    | cons h2 rest2 =>
      have ih2 : joinNewline (h2 :: rest2) ++ "\n" =
          ((h2 :: rest2).map (fun h => h ++ "\n")).foldr (· ++ ·) "" := by
        simpa using ih
      show (h ++ "\n" ++ joinNewline (h2 :: rest2)) ++ "\n" = _
      rw [String.append_assoc, ih2]
      rfl

/-- C7: the persisted file consists of the header line, the UTC timestamp
line, and then exactly one line per reachable address — no address lines
when the list is empty; the file is created with mode `0o600`
(owner read/write only); and when no filename is supplied the name
defaults to `scan_<timestamp>.txt` inside the system temporary
directory. -/
theorem save_file_format (hosts : List String) (iso tmpDir ts : String) :
    save_content hosts iso =
      ("Scan results - host discovery\n" :: ("Timestamp (UTC): " ++ iso ++ "Z\n") ::
        hosts.map (fun h => h ++ "\n")).foldr (· ++ ·) "" ∧
    SAVE_FILE_MODE = 0o600 ∧
    save_filename none tmpDir ts = tmpDir ++ "/scan_" ++ ts ++ ".txt" := by
  refine ⟨?_, rfl, rfl⟩
  show ("Scan results - host discovery\n" ++
    ("Timestamp (UTC): " ++ iso ++ "Z\n")) ++
    (joinNewline hosts ++ (if hosts.isEmpty then "" else "\n")) = _
  rw [joinNewline_lines, String.append_assoc]
  rfl

/-- Outcome of the `f.write` calls inside `save_results_securely`, and of
the save step as seen from `main`. -/
inductive SaveOutcome where
  | ok
  | failed
deriving DecidableEq

/-- `save_results_securely` (lines 92-114) as a function of the write
outcome: on success it returns the chosen filename and the file exists; if
a write raises, the partially written file is removed (`os.remove`,
line 110) and the exception is re-raised (line 113).  The result pairs the
returned-or-raised value with whether the file still exists. -/
def save_results_securely (filename : Option String) (tmpDir ts : String)
    (w : SaveOutcome) : Except Unit String × Bool :=
  match w with
  | .ok => (Except.ok (save_filename filename tmpDir ts), true)
  | .failed => (Except.error (), false)

/-- Exit code and whether any probing was attempted, for one run of
`main`. -/
structure RunOutcome where
  exitCode : Nat
  probed : Bool
deriving DecidableEq

/-- `main` (lines 117-149) as a function of the parsed arguments and of the
external outcomes: missing `--confirm-legal` exits 2 before scanning;
`max_workers` outside `[1, 200]` exits 2 before scanning; an invalid CIDR
(`cidr = none`) raises `ValueError` inside `scan_network` before any probe
and is caught with exit 2; a failed save raises a non-`ValueError`
exception caught with exit 1; otherwise the run falls through with exit
0. -/
def run_main (confirmLegal : Bool) (maxWorkers : Int)
    (cidr : Option (Nat × Nat)) (saveFlag : Bool) (so : SaveOutcome) : RunOutcome :=
  if ¬ confirmLegal then ⟨2, false⟩
  else if maxWorkers < 1 ∨ maxWorkers > 200 then ⟨2, false⟩
  else
    match cidr with
    | none => ⟨2, false⟩
    | some _ =>
      if saveFlag then
        match so with
        | .ok => ⟨0, true⟩
        | .failed => ⟨1, true⟩
      else ⟨0, true⟩

/-- C6: every validation/usage error — missing confirmation, out-of-range
worker count, malformed CIDR — exits with status 2 and attempts no
probing; a successful run exits 0, and an unexpected internal failure
(here: a failing save) exits 1. -/
theorem exit_codes_spec (mw : Int) (nw : Nat × Nat) (sf : Bool) (so : SaveOutcome) :
    run_main false mw (some nw) sf so = ⟨2, false⟩ ∧
    run_main false mw none sf so = ⟨2, false⟩ ∧
    ((mw < 1 ∨ 200 < mw) → run_main true mw (some nw) sf so = ⟨2, false⟩) ∧
    (1 ≤ mw → mw ≤ 200 → run_main true mw none sf so = ⟨2, false⟩) ∧
    (1 ≤ mw → mw ≤ 200 → run_main true mw (some nw) sf SaveOutcome.ok = ⟨0, true⟩) ∧
    (1 ≤ mw → mw ≤ 200 → run_main true mw (some nw) false so = ⟨0, true⟩) ∧
    (1 ≤ mw → mw ≤ 200 → run_main true mw (some nw) true SaveOutcome.failed = ⟨1, true⟩) := by
  refine ⟨rfl, rfl, ?_, ?_, ?_, ?_, ?_⟩
  · intro h
    unfold run_main
    rw [if_neg (by decide), if_pos h]
  · intro h1 h2
    unfold run_main
    rw [if_neg (by decide), if_neg (by omega)]
  · intro h1 h2
    unfold run_main
    rw [if_neg (by decide), if_neg (by omega)]
    cases sf <;> rfl
  · intro h1 h2
    unfold run_main
    rw [if_neg (by decide), if_neg (by omega)]
    cases so <;> rfl
  · intro h1 h2
    unfold run_main
    rw [if_neg (by decide), if_neg (by omega)]
    rfl

/-- Witness for `exit_codes_spec`: concrete invocations covering each
validation error, success and internal failure. -/
theorem exit_codes_spec_witness :
    run_main false 30 (some (0, 24)) false SaveOutcome.ok = ⟨2, false⟩ ∧
    run_main true 0 (some (0, 24)) false SaveOutcome.ok = ⟨2, false⟩ ∧
    run_main true 201 (some (0, 24)) false SaveOutcome.ok = ⟨2, false⟩ ∧
    run_main true 30 none false SaveOutcome.ok = ⟨2, false⟩ ∧
    run_main true 30 (some (0, 24)) false SaveOutcome.ok = ⟨0, true⟩ ∧
    run_main true 30 (some (0, 24)) true SaveOutcome.failed = ⟨1, true⟩ :=
  ⟨(exit_codes_spec 30 (0, 24) false SaveOutcome.ok).1,
   (exit_codes_spec 0 (0, 24) false SaveOutcome.ok).2.2.1 (Or.inl (by norm_num)),
   (exit_codes_spec 201 (0, 24) false SaveOutcome.ok).2.2.1 (Or.inr (by norm_num)),
   (exit_codes_spec 30 (0, 24) false SaveOutcome.ok).2.2.2.1 (by norm_num) (by norm_num),
   (exit_codes_spec 30 (0, 24) false SaveOutcome.ok).2.2.2.2.1 (by norm_num) (by norm_num),
   (exit_codes_spec 30 (0, 24) true SaveOutcome.failed).2.2.2.2.2.2 (by norm_num) (by norm_num)⟩

/-- C8: if writing the results file fails, the partially written file is
removed (it no longer exists), the save operation re-raises the error to
its caller, and `main` exits with the internal-failure status 1. -/
theorem write_failure_cleanup (fn : Option String) (tmpDir ts : String)
    (mw : Int) (nw : Nat × Nat) (h1 : 1 ≤ mw) (h2 : mw ≤ 200) :
    save_results_securely fn tmpDir ts SaveOutcome.failed = (Except.error (), false) ∧
    run_main true mw (some nw) true SaveOutcome.failed = ⟨1, true⟩ := by
  refine ⟨rfl, ?_⟩
  unfold run_main
  rw [if_neg (by decide), if_neg (by omega)]
  rfl

/-- Witness for `write_failure_cleanup` at a concrete failing save. -/
theorem write_failure_cleanup_witness :
    (1 : Int) ≤ 30 ∧ (30 : Int) ≤ 200 ∧
    (save_results_securely none "/tmp" "20260101T000000Z" SaveOutcome.failed =
       (Except.error (), false) ∧
     run_main true 30 (some (0, 24)) true SaveOutcome.failed = ⟨1, true⟩) :=
  ⟨by norm_num, by norm_num,
   write_failure_cleanup none "/tmp" "20260101T000000Z" 30 (0, 24)
     (by norm_num) (by norm_num)⟩
